import Mathlib

/-!
Verification development for the `tga_web` repository.

Shallow embedding of the core components named by the specification:
the URL normalizer (`src/tga_web/services/url_normalization.py`),
the run repository (`src/tga_web/repositories/run_repository.py`),
the analysis orchestrator (`src/tga_web/services/analysis_service.py`)
and the download route (`src/tga_web/web/routes.py`).

Strings are modelled as `List Char` (Python `str`); the Python `str.strip`,
`str.lower`, `str.split("/", 1)` and the membership tests are embedded
directly below.
-/

namespace TgaWeb

/-- Python `str.strip()` whitespace class restricted to the ASCII
whitespace characters (space, tab, newline, carriage return, vertical
tab, form feed). -/
def pyIsSpace (c : Char) : Bool :=
  c = ' ' || c = '\t' || c = '\n' || c = '\r' || c = '\x0b' || c = '\x0c'

/-- Python `s.strip()`: drop leading and trailing whitespace. -/
def pyStrip (s : List Char) : List Char :=
  List.rdropWhile pyIsSpace (s.dropWhile pyIsSpace)

/-- Python `s.lower()` on ASCII text (`Char.toLower` agrees with Python
on the ASCII letters used by the scheme check and host comparison). -/
def lowerAscii (s : List Char) : List Char :=
  s.map Char.toLower

/-- The scheme check `re.match(r"^https?://", s, flags=re.IGNORECASE)`
is non-`None` exactly when the lowercased input starts with `http://`
or `https://`. -/
def startsWithScheme (s : List Char) : Bool :=
  List.isPrefixOf "http://".toList (lowerAscii s)
    || List.isPrefixOf "https://".toList (lowerAscii s)

/-- Embedding of `GuessComUrlNormalizer` (url_normalization.py, lines
11–15).  `no_guess_hosts` is a Python `set[str]`, modelled as a list of
entries; membership (`in`) is exact equality of character lists, as in
Python. -/
structure GuessComUrlNormalizer where
  default_scheme : List Char
  guess_com_if_no_dot : Bool
  no_guess_hosts : List (List Char)

/-- The Python local `host = parts[0].strip()` where
`parts = s.split("/", 1)`: `parts[0]` is the longest slash-free first
segment (`takeWhile`). -/
def splitHost (s : List Char) : List Char :=
  pyStrip (s.takeWhile (fun c => c ≠ '/'))

/-- The Python local `rest = ("/" + parts[1]) if len(parts) > 1 else ""`:
exactly the suffix of `s` starting at its first slash (`dropWhile`). -/
def splitRest (s : List Char) : List Char :=
  s.dropWhile (fun c => c ≠ '/')

/-- The Python local `host` after the guessing step (url_normalization.py,
lines 29–31): append `.com` when guessing is on, the host has no dot and
the lowercased host is not an exclusion entry (`host.lower() not in
no_guess_hosts` — the entries themselves are compared verbatim). -/
def guessedHost (n : GuessComUrlNormalizer) (s : List Char) : List Char :=
  if n.guess_com_if_no_dot
      && !((splitHost s).contains '.')
      && !(n.no_guess_hosts.contains (lowerAscii (splitHost s))) then
    splitHost s ++ ".com".toList
  else splitHost s

/-- Embedding of `GuessComUrlNormalizer.normalize` (url_normalization.py,
lines 17–33):

    s = (s or "").strip()
    if not s: return ""
    if re.match(r"^https?://", s, flags=re.IGNORECASE): return s
    parts = s.split("/", 1)
    host = parts[0].strip()
    rest = ("/" + parts[1]) if len(parts) > 1 else ""
    no_guess_hosts = self.no_guess_hosts or set()
    if self.guess_com_if_no_dot and "." not in host and host.lower() not in no_guess_hosts:
        host = host + ".com"
    return f"{self.default_scheme}://" + host + rest

with the locals `host` and `rest` named `guessedHost` and `splitRest`
above. -/
def GuessComUrlNormalizer.normalize (n : GuessComUrlNormalizer) (s0 : List Char) :
    List Char :=
  if pyStrip s0 = [] then []
  else if startsWithScheme (pyStrip s0) then pyStrip s0
  else
    n.default_scheme ++ "://".toList
      ++ guessedHost n (pyStrip s0) ++ splitRest (pyStrip s0)

/-- The normalizer configured with the repository defaults
(`default_scheme="https"`, `guess_com_if_no_dot=True`) and the test
suite exclusion set. -/
def defaultNormalizer : GuessComUrlNormalizer :=
  { default_scheme := "https".toList
    guess_com_if_no_dot := true
    no_guess_hosts := ["localhost".toList, "127.0.0.1".toList] }

/-! ### Run repository (run_repository.py)

Filesystem model: a search location (`Path` base) is either absent or a
directory whose immediate children are `DirEntry` values carrying the
child name, whether it is a directory (`Path.is_dir`), and its
modification time (`Path.stat().st_mtime`, modelled as a natural
number). -/

/-- One child of a base directory. -/
structure DirEntry where
  name : List Char
  is_dir : Bool
  mtime : Nat
deriving DecidableEq

/-- A search location: `present` models `Path.exists()`; `entries`
models `Path.iterdir()` in iteration order. -/
structure BaseDir where
  present : Bool
  entries : List DirEntry
deriving DecidableEq

/-- The fixed run-directory naming convention `"comparison_report_"`. -/
def runDirNamePat : List Char := "comparison_report_".toList

/-- The candidate scan
`[p for p in base.iterdir() if p.is_dir() and p.name.startswith("comparison_report_")]`. -/
def matchingCandidates (b : BaseDir) : List DirEntry :=
  b.entries.filter (fun e => e.is_dir && List.isPrefixOf runDirNamePat e.name)

/-- Python `max(candidates, key=f)`: fold keeping the current maximum,
replacing it only on a strictly greater key (so the first of several
equal-key maxima is kept); `none` on the empty list. -/
def pyMax {α : Type} (f : α → Nat) : List α → Option α
  | [] => none
  | x :: xs => some (xs.foldl (fun acc y => if f acc < f y then y else acc) x)

/-- Embedding of `_newest_run_dir_in` (run_repository.py, lines 10–16). -/
def newest_run_dir_in (b : BaseDir) : Option DirEntry :=
  if !b.present then none
  else pyMax (fun e => e.mtime) (matchingCandidates b)

/-- Embedding of `RunRepository.find_newest_run_dir` (run_repository.py,
lines 27–32): `a if a.stat().st_mtime >= b.stat().st_mtime else b` when
both locations yield a candidate, otherwise `a or b`. -/
def find_newest_run_dir (reports_base exe_dir : BaseDir) : Option DirEntry :=
  match newest_run_dir_in reports_base, newest_run_dir_in exe_dir with
  | some a, some b => if b.mtime ≤ a.mtime then some a else some b
  | some a, none => some a
  | none, some b => some b
  | none, none => none

/-- Concrete reports location with one matching run directory. -/
def demoReports : BaseDir :=
  ⟨true, [⟨"comparison_report_a".toList, true, 10⟩]⟩

/-- Concrete exe-dir location with one (older) matching run directory. -/
def demoExe : BaseDir :=
  ⟨true, [⟨"comparison_report_b".toList, true, 3⟩]⟩

/-- First of two matching subdirectories with equal modification times. -/
def tieEntryA : DirEntry := ⟨"comparison_report_a".toList, true, 7⟩

/-- Last of two matching subdirectories with equal modification times. -/
def tieEntryB : DirEntry := ⟨"comparison_report_b".toList, true, 7⟩

/-- A location holding two matching subdirectories with the same
modification time. -/
def tieBase : BaseDir := ⟨true, [tieEntryA, tieEntryB]⟩

/-! ### Analysis orchestrator (analysis_service.py)

The external process is modelled by an oracle
`procExec : List (List Char) → ProcOutcome` giving, for each argument
vector, the outcome of `subprocess.run`: a completed process (any exit
code, with captured stdout/stderr), a `subprocess.TimeoutExpired`, or
any other launch exception.  `AnalysisService.run` returns the Python
function outcome — a raised exception or an `AnalysisResult` — paired
with the trace of argument vectors passed to `subprocess.run`, in
order. -/

/-- Outcome of one `subprocess.run` call. -/
inductive ProcOutcome where
  | completed (returncode : Int) (stdout stderr : List Char)
  | timedOut
  | launchError (msg : List Char)
deriving DecidableEq

/-- The exceptions `AnalysisService.run` can raise:
`ValueError("Competitor is required.")`, or `RuntimeError` on timeout or
launch failure. -/
inductive RunError where
  | valueError (msg : List Char)
  | runtimeError (msg : List Char)
deriving DecidableEq

/-- Embedding of the `AnalysisResult` fields the claims are about
(domain/models.py).  The wall-clock fields `generated_at`,
`duration_seconds` and `run_id` are real-time values outside the
embedding, and `outputs` (a `pick_outputs` glob over the files of the
run directory) is referenced by no claim; they are omitted. -/
structure AnalysisResult where
  status : List Char
  competitor : List Char
  baseline : List Char
  exit_code : Int
  run_dir : Option DirEntry
  stdout_tail : List Char
  stderr_tail : List Char
deriving DecidableEq

/-- Embedding of the `AnalysisService` dataclass (analysis_service.py,
lines 13–22); `run_repo` is carried as its two search locations.
`timeout_seconds` only parametrizes `subprocess.run`, whose behaviour is
decided by the oracle, so it needs no field. -/
structure AnalysisService where
  exe_path : List Char
  url_normalizer : GuessComUrlNormalizer
  reports_base : BaseDir
  exe_dir : BaseDir

/-- Python `str.splitlines()` worker for the newline forms occurring in
process output (`\n`, `\r\n`, `\r`). -/
def pySplitLinesAux : List Char → List Char → List (List Char)
  | [], acc => if acc.isEmpty then [] else [acc.reverse]
  | '\r' :: '\n' :: rest, acc => acc.reverse :: pySplitLinesAux rest []
  | '\r' :: rest, acc => acc.reverse :: pySplitLinesAux rest []
  | '\n' :: rest, acc => acc.reverse :: pySplitLinesAux rest []
  | c :: rest, acc => pySplitLinesAux rest (c :: acc)

/-- Python `s.splitlines()`. -/
def pySplitLines (s : List Char) : List (List Char) :=
  pySplitLinesAux s []

/-- Python `l[-k:]`. -/
def pyTakeLast {α : Type} (k : Nat) (l : List α) : List α :=
  l.drop (l.length - k)

/-- The display tail `"\n".join((text or "").splitlines()[-60:])`
(analysis_service.py, lines 103–104). -/
def tailOf (s : List Char) : List Char :=
  List.intercalate "\n".toList (pyTakeLast 60 (pySplitLines s))

/-- Python substring membership `pat in s`: some contiguous slice of
`s` equals `pat`. -/
def hasSub (s pat : List Char) : Bool :=
  match s with
  | [] => pat.isEmpty
  | _ :: t => List.isPrefixOf pat s || hasSub t pat

/-- The unrecognized-flag stderr check (analysis_service.py, lines
75–80): any of three case-insensitive substrings of stderr. -/
def stderrIndicatesUnknownOption (err : List Char) : Bool :=
  hasSub (lowerAscii err) "unrecognized arguments".toList
    || hasSub (lowerAscii err) "unknown option".toList
    || hasSub (lowerAscii err) "unrecognized option".toList

/-- The normalized-or-empty baseline
`baseline = self.url_normalizer.normalize(baseline_raw) if
(baseline_raw or "").strip() else ""` (analysis_service.py, line 34). -/
def AnalysisService.baselineOf (svc : AnalysisService)
    (baseline_raw : List Char) : List Char :=
  if pyStrip baseline_raw ≠ [] then svc.url_normalizer.normalize baseline_raw
  else []

/-- The retry argument vector (analysis_service.py, lines 82–84): the
base command plus `--file` when a file was supplied, without the
prompt-related flags. -/
def AnalysisService.fallbackCmdOf (svc : AnalysisService)
    (competitor baseline file_raw : List Char) : List (List Char) :=
  [svc.exe_path, "--competitor".toList, competitor, "--baseline".toList, baseline]
    ++ (if pyStrip file_raw ≠ [] then ["--file".toList, pyStrip file_raw] else [])

/-- The first-attempt argument vector (analysis_service.py, lines
40–53): the base command plus `--file`, `--instruction-preset` and
`--extra-instructions`, each only when the stripped value is
non-empty. -/
def AnalysisService.cmdOf (svc : AnalysisService)
    (competitor baseline file_raw instruction_preset extra_instructions : List Char) :
    List (List Char) :=
  svc.fallbackCmdOf competitor baseline file_raw
    ++ (if pyStrip instruction_preset ≠ [] then
          ["--instruction-preset".toList, pyStrip instruction_preset] else [])
    ++ (if pyStrip extra_instructions ≠ [] then
          ["--extra-instructions".toList, pyStrip extra_instructions] else [])

/-- Assembly of the returned `AnalysisResult` (analysis_service.py,
lines 100–120). -/
def AnalysisService.mkResult (svc : AnalysisService)
    (competitor baseline : List Char) (rc : Int) (out err : List Char) :
    AnalysisResult :=
  { status := if rc = 0 then "ok".toList else "failed".toList
    competitor := competitor
    baseline := baseline
    exit_code := rc
    run_dir := find_newest_run_dir svc.reports_base svc.exe_dir
    stdout_tail := tailOf out
    stderr_tail := tailOf err }

/-- Embedding of `AnalysisService.run` (analysis_service.py, lines
24–120).  Raising is modelled by `Except.error`; the second component
is the list of argument vectors handed to `subprocess.run`, in order.
The Python locals `competitor`, `baseline`, `cmd` and `fallback_cmd`
are inlined as `svc.url_normalizer.normalize competitor_raw`,
`svc.baselineOf baseline_raw`, `svc.cmdOf …` and
`svc.fallbackCmdOf …`. -/
def AnalysisService.run (svc : AnalysisService)
    (competitor_raw baseline_raw file_raw extra_instructions instruction_preset : List Char)
    (procExec : List (List Char) → ProcOutcome) :
    Except RunError AnalysisResult × List (List (List Char)) :=
  if svc.url_normalizer.normalize competitor_raw = [] then
    (Except.error (RunError.valueError "Competitor is required.".toList), [])
  else
    match procExec (svc.cmdOf (svc.url_normalizer.normalize competitor_raw)
        (svc.baselineOf baseline_raw) file_raw instruction_preset extra_instructions) with
    | ProcOutcome.timedOut =>
        (Except.error (RunError.runtimeError "Execution timed out.".toList),
          [svc.cmdOf (svc.url_normalizer.normalize competitor_raw)
            (svc.baselineOf baseline_raw) file_raw instruction_preset extra_instructions])
    | ProcOutcome.launchError m =>
        (Except.error (RunError.runtimeError ("Failed to execute: ".toList ++ m)),
          [svc.cmdOf (svc.url_normalizer.normalize competitor_raw)
            (svc.baselineOf baseline_raw) file_raw instruction_preset extra_instructions])
    | ProcOutcome.completed rc out err =>
        if rc ≠ 0 ∧ stderrIndicatesUnknownOption err = true ∧
            (pyStrip extra_instructions ≠ [] ∨ pyStrip instruction_preset ≠ []) then
          match procExec (svc.fallbackCmdOf (svc.url_normalizer.normalize competitor_raw)
              (svc.baselineOf baseline_raw) file_raw) with
          | ProcOutcome.timedOut =>
              (Except.error (RunError.runtimeError "Execution timed out.".toList),
                [svc.cmdOf (svc.url_normalizer.normalize competitor_raw)
                  (svc.baselineOf baseline_raw) file_raw instruction_preset extra_instructions,
                 svc.fallbackCmdOf (svc.url_normalizer.normalize competitor_raw)
                  (svc.baselineOf baseline_raw) file_raw])
          | ProcOutcome.launchError m =>
              (Except.error (RunError.runtimeError ("Failed to execute: ".toList ++ m)),
                [svc.cmdOf (svc.url_normalizer.normalize competitor_raw)
                  (svc.baselineOf baseline_raw) file_raw instruction_preset extra_instructions,
                 svc.fallbackCmdOf (svc.url_normalizer.normalize competitor_raw)
                  (svc.baselineOf baseline_raw) file_raw])
          | ProcOutcome.completed rc2 out2 err2 =>
              (Except.ok (svc.mkResult (svc.url_normalizer.normalize competitor_raw)
                  (svc.baselineOf baseline_raw) rc2 out2 err2),
                [svc.cmdOf (svc.url_normalizer.normalize competitor_raw)
                  (svc.baselineOf baseline_raw) file_raw instruction_preset extra_instructions,
                 svc.fallbackCmdOf (svc.url_normalizer.normalize competitor_raw)
                  (svc.baselineOf baseline_raw) file_raw])
        else
          (Except.ok (svc.mkResult (svc.url_normalizer.normalize competitor_raw)
              (svc.baselineOf baseline_raw) rc out err),
            [svc.cmdOf (svc.url_normalizer.normalize competitor_raw)
              (svc.baselineOf baseline_raw) file_raw instruction_preset extra_instructions])

/-- A concrete service instance for witnesses. -/
def svc0 : AnalysisService :=
  ⟨"tga.exe".toList, defaultNormalizer, demoReports, demoExe⟩

/-- An oracle whose process always succeeds with exit code 0. -/
def execOk : List (List Char) → ProcOutcome :=
  fun _ => ProcOutcome.completed 0 [] []

/-- An oracle rejecting the `--extra-instructions` flag with exit code 2
and an `unrecognized arguments` message, and succeeding otherwise. -/
def execRejectsPromptFlags : List (List Char) → ProcOutcome :=
  fun c =>
    if "--extra-instructions".toList ∈ c then
      ProcOutcome.completed 2 []
        "unrecognized arguments: --extra-instructions".toList
    else ProcOutcome.completed 0 [] []

/-! ### Download route (routes.py, lines 239–252)

Paths are modelled resolved, as the list of their components from the
filesystem root; symlinks are outside the model.  The Flask
`<filename>` converter never matches a slash, so the requested filename
is a single component, possibly `.` or `..`. -/

/-- A resolved absolute path, as its component list. -/
abbrev FsPath := List (List Char)

/-- Outcome of the `download` view: `send_file`, `abort(403)` or
`abort(404)`.  Only `serve` carries file content. -/
inductive DownloadOutcome where
  | serve (p : FsPath)
  | forbidden
  | notFound
deriving DecidableEq

/-- Resolution `(run_dir / filename).resolve()` for a single slash-free component:
`.` stays (pathlib drops it at construction), `..` resolves to the
parent, any other name descends one level. -/
def resolveChild (d : FsPath) (name : List Char) : FsPath :=
  if name = ".".toList then d
  else if name = "..".toList then d.dropLast
  else d ++ [name]

/-- The containment check `run_dir.resolve() in full.parents`: `full.parents` holds exactly
the proper ancestors of `full`, i.e. its proper component-list
prefixes. -/
def isProperAncestorOf (d p : FsPath) : Bool :=
  List.isPrefixOf d p && decide (d.length < p.length)

/-- Embedding of the `download` view (routes.py, lines 239–252).
`runs` is the in-memory run-id → run-directory mapping (run
directories stored resolved); `fs` lists the paths at which a regular
file exists (`full.exists() and full.is_file()`). -/
def download (runs : List (List Char × FsPath)) (fs : List FsPath)
    (run_id filename : List Char) : DownloadOutcome :=
  match runs.lookup run_id with
  | none => DownloadOutcome.notFound
  | some run_dir =>
    if isProperAncestorOf run_dir (resolveChild run_dir filename) = false then
      DownloadOutcome.forbidden
    else if resolveChild run_dir filename ∉ fs then DownloadOutcome.notFound
    else DownloadOutcome.serve (resolveChild run_dir filename)

/-- A concrete recorded-runs mapping for witnesses. -/
def demoRuns : List (List Char × FsPath) :=
  [("20250101_010101".toList,
    ["c:".toList, "runs".toList, "comparison_report_1".toList])]

/-- A concrete filesystem for witnesses: one report file inside the
recorded run directory. -/
def demoFs : List FsPath :=
  [["c:".toList, "runs".toList, "comparison_report_1".toList,
    "report.html".toList]]

/-! ### Helper lemmas about `pyStrip` -/

theorem dropWhile_head_false {α : Type} (p : α → Bool) :
    ∀ {l : List α} {c : α} {t : List α}, List.dropWhile p l = c :: t → p c = false := by
  intro l
  induction l with
  | nil => intro c t h; simp [List.dropWhile] at h
  | cons a as ih =>
      intro c t h
      rw [List.dropWhile_cons] at h
      by_cases hp : p a
      · rw [if_pos hp] at h; exact ih h
      · rw [if_neg hp] at h
        cases h
        simpa using hp

theorem rdropWhile_rtakeWhile_append {α : Type} (p : α → Bool) (l : List α) :
    List.rdropWhile p l ++ List.rtakeWhile p l = l := by
  rw [List.rdropWhile, List.rtakeWhile, ← List.reverse_append,
    List.takeWhile_append_dropWhile, List.reverse_reverse]

theorem pyStrip_head_false {s : List Char} {c : Char} {t : List Char}
    (h : pyStrip s = c :: t) : pyIsSpace c = false := by
  have hdec := rdropWhile_rtakeWhile_append pyIsSpace (s.dropWhile pyIsSpace)
  rw [show List.rdropWhile pyIsSpace (s.dropWhile pyIsSpace) = c :: t from h] at hdec
  exact dropWhile_head_false pyIsSpace (by rw [hdec.symm]; rfl)

theorem pyStrip_getLast_false {s : List Char} {c : Char}
    (h : (pyStrip s).getLast? = some c) : pyIsSpace c = false := by
  have hne : pyStrip s ≠ [] := by
    intro hnil; rw [hnil] at h; simp at h
  have hlast : ¬ pyIsSpace ((pyStrip s).getLast hne) = true :=
    List.rdropWhile_last_not pyIsSpace (s.dropWhile pyIsSpace) hne
  rw [List.getLast?_eq_getLast _ hne] at h
  have hc : (pyStrip s).getLast hne = c := by injection h
  rw [hc] at hlast
  simpa using hlast

theorem pyStrip_eq_self {s : List Char}
    (h1 : ∀ c t, s = c :: t → pyIsSpace c = false)
    (h2 : ∀ c, s.getLast? = some c → pyIsSpace c = false) :
    pyStrip s = s := by
  have hd : s.dropWhile pyIsSpace = s := by
    cases s with
    | nil => rfl
    | cons a t =>
        rw [List.dropWhile_cons, if_neg]
        rw [h1 a t rfl]
        simp
  rw [pyStrip, hd, List.rdropWhile_eq_self_iff]
  intro hl
  rw [h2 (s.getLast hl) (List.getLast?_eq_getLast _ hl)]
  simp

theorem pyStrip_idem (s : List Char) : pyStrip (pyStrip s) = pyStrip s := by
  refine pyStrip_eq_self ?_ ?_
  · intro c t h; exact pyStrip_head_false h
  · intro c h; exact pyStrip_getLast_false h

theorem pyStrip_all_space {s : List Char} (h : ∀ c ∈ s, pyIsSpace c = true) :
    pyStrip s = [] := by
  rw [pyStrip, List.dropWhile_eq_nil_iff.mpr (by intro x hx; exact h x hx)]
  simp [List.rdropWhile]

theorem lowerAscii_append (a b : List Char) :
    lowerAscii (a ++ b) = lowerAscii a ++ lowerAscii b :=
  List.map_append Char.toLower a b

theorem isPre_self_append : ∀ (a b : List Char), List.isPrefixOf a (a ++ b) = true
  | [], _ => by simp [List.isPrefixOf]
  | c :: a, b => by simp [List.isPrefixOf, isPre_self_append a b]

/-- Shared helper: on inputs whose stripped form carries a scheme,
`normalize` returns the stripped input. -/
theorem normalize_schemed_eq_strip
    (n : GuessComUrlNormalizer) (s : List Char)
    (h : startsWithScheme (pyStrip s) = true) :
    n.normalize s = pyStrip s := by
  have hne : pyStrip s ≠ [] := by
    intro hnil
    rw [hnil] at h
    exact absurd h (by decide)
  rw [GuessComUrlNormalizer.normalize]
  simp only [if_neg hne, if_pos h]

/-! ### Claims about the URL normalizer -/

/-- C1, counterexample: the claim extends the identity property to inputs
carrying leading or trailing whitespace around the schemed URL, but
`normalize` strips the input before the scheme check, so a schemed URL
with trailing whitespace is returned stripped, not unchanged. -/
theorem normalize_not_identity_on_padded_schemed_input :
    defaultNormalizer.normalize "https://a.com ".toList ≠ "https://a.com ".toList := by
  decide

/-- C1, amended: for every input whose whitespace-stripped form starts
with `http://` or `https://` (case-insensitive), `normalize` returns the
stripped input; in particular it is the identity on schemed inputs with
no leading or trailing whitespace. -/
theorem normalize_eq_strip_on_schemed_input
    (n : GuessComUrlNormalizer) (s : List Char)
    (h : startsWithScheme (pyStrip s) = true) :
    n.normalize s = pyStrip s :=
  normalize_schemed_eq_strip n s h

/-- C1, witness for the amended theorem at a concrete padded input. -/
theorem normalize_eq_strip_on_schemed_input_witness :
    defaultNormalizer.normalize " HTTPS://a.com ".toList
      = pyStrip " HTTPS://a.com ".toList :=
  normalize_eq_strip_on_schemed_input defaultNormalizer _ (by decide)

/-- C2 (code bug), evaluation at the failing input: with the exclusion
set `{"LocalHost"}` the host `localhost` still gets `.com` appended,
because the code lowercases only the input host and compares it against
the exclusion entries verbatim (`host.lower() not in no_guess_hosts`).
This contradicts the test of the repository itself,
`test_no_guess_hosts_case_insensitive`, which expects
`https://localhost`. -/
theorem normalize_appends_com_despite_uppercase_exclusion_entry :
    GuessComUrlNormalizer.normalize
        { default_scheme := "https".toList
          guess_com_if_no_dot := true
          no_guess_hosts := ["LocalHost".toList] }
        "localhost".toList
      = "https://localhost.com".toList := by
  decide

/-- C8: every input that is empty or consists only of whitespace
normalizes to the empty string (`normalize` is total, so no exception is
possible). -/
theorem normalize_whitespace_only_eq_empty
    (n : GuessComUrlNormalizer) (s : List Char)
    (h : ∀ c ∈ s, pyIsSpace c = true) :
    n.normalize s = [] := by
  rw [GuessComUrlNormalizer.normalize]
  simp only [pyStrip_all_space h]
  simp

/-- C8, witness at a whitespace-only input. -/
theorem normalize_whitespace_only_eq_empty_witness :
    defaultNormalizer.normalize "  \t ".toList = [] :=
  normalize_whitespace_only_eq_empty defaultNormalizer _ (by decide)

/-! ### Claims about the run repository -/

/-- Python `max()` fold invariant: the running maximum is replaced only
on a strictly greater key, so the final value is either the initial
accumulator (when nothing beats it) or the first list element that
strictly exceeds both the accumulator and everything before it, with
everything after it no greater. -/
theorem foldl_pyMax_spec {α : Type} (f : α → Nat) :
    ∀ (xs : List α) (acc r : α),
      xs.foldl (fun a y => if f a < f y then y else a) acc = r →
      (r = acc ∧ ∀ y ∈ xs, f y ≤ f acc) ∨
      (∃ l₁ l₂, xs = l₁ ++ r :: l₂ ∧ f acc < f r ∧
        (∀ y ∈ l₁, f y < f r) ∧ (∀ y ∈ l₂, f y ≤ f r)) := by
  intro xs
  induction xs with
  | nil =>
      intro acc r h
      simp only [List.foldl_nil] at h
      exact Or.inl ⟨h.symm, by simp⟩
  | cons y ys ih =>
      intro acc r h
      rw [List.foldl_cons] at h
      by_cases hy : f acc < f y
      · rw [if_pos hy] at h
        rcases ih y r h with ⟨hr, hall⟩ | ⟨m₁, m₂, hsplit, hgt, h₁, h₂⟩
        · refine Or.inr ⟨[], ys, ?_, ?_, by simp, ?_⟩
          · rw [hr]; rfl
          · rw [hr]; exact hy
          · rw [hr]; exact hall
        · refine Or.inr ⟨y :: m₁, m₂, by rw [hsplit]; rfl,
            Nat.lt_trans hy hgt, ?_, h₂⟩
          intro z hz
          rcases List.mem_cons.mp hz with hzy | hzm
          · rw [hzy]; exact hgt
          · exact h₁ z hzm
      · rw [if_neg hy] at h
        rcases ih acc r h with ⟨hr, hall⟩ | ⟨m₁, m₂, hsplit, hgt, h₁, h₂⟩
        · refine Or.inl ⟨hr, ?_⟩
          intro z hz
          rcases List.mem_cons.mp hz with hzy | hzm
          · rw [hzy]; omega
          · exact hall z hzm
        · refine Or.inr ⟨y :: m₁, m₂, by rw [hsplit]; rfl, hgt, ?_, h₂⟩
          intro z hz
          rcases List.mem_cons.mp hz with hzy | hzm
          · rw [hzy]; omega
          · exact h₁ z hzm

/-- C3: across the per-location candidates of the two locations,
`find_newest_run_dir` returns the one with the strictly greater
modification time; if exactly one location contributes a candidate, that
one is returned; if neither does, the result is `none` (the function is
total, so no error is raised). -/
theorem find_newest_run_dir_cases (reports_base exe_dir : BaseDir) :
    (∀ a b, newest_run_dir_in reports_base = some a →
        newest_run_dir_in exe_dir = some b →
        (b.mtime < a.mtime → find_newest_run_dir reports_base exe_dir = some a) ∧
        (a.mtime < b.mtime → find_newest_run_dir reports_base exe_dir = some b)) ∧
    (∀ a, newest_run_dir_in reports_base = some a →
        newest_run_dir_in exe_dir = none →
        find_newest_run_dir reports_base exe_dir = some a) ∧
    (∀ b, newest_run_dir_in reports_base = none →
        newest_run_dir_in exe_dir = some b →
        find_newest_run_dir reports_base exe_dir = some b) ∧
    (newest_run_dir_in reports_base = none →
        newest_run_dir_in exe_dir = none →
        find_newest_run_dir reports_base exe_dir = none) := by
  refine ⟨?_, ?_, ?_, ?_⟩
  · intro a b ha hb
    constructor
    · intro hlt
      simp only [find_newest_run_dir, ha, hb]
      rw [if_pos (Nat.le_of_lt hlt)]
    · intro hlt
      simp only [find_newest_run_dir, ha, hb]
      rw [if_neg (by omega)]
  · intro a ha hb
    simp only [find_newest_run_dir, ha, hb]
  · intro b ha hb
    simp only [find_newest_run_dir, ha, hb]
  · intro ha hb
    simp only [find_newest_run_dir, ha, hb]

/-- C3, witness: with one candidate per location (mtimes 10 and 3), the
reports-base candidate is returned. -/
theorem find_newest_run_dir_cases_witness :
    find_newest_run_dir demoReports demoExe
      = some ⟨"comparison_report_a".toList, true, 10⟩ :=
  ((find_newest_run_dir_cases demoReports demoExe).1
      ⟨"comparison_report_a".toList, true, 10⟩
      ⟨"comparison_report_b".toList, true, 3⟩
      (by decide) (by decide)).1 (by decide)

/-- C4, counterexample: with two matching candidates of equal
modification time, the selected candidate is the first in iteration
order (`tieEntryA`), not the last (`tieEntryB`), so the claimed
last-wins tie-breaking is false. -/
theorem newest_run_dir_in_tie_first_not_last :
    newest_run_dir_in tieBase = some tieEntryA ∧ tieEntryA ≠ tieEntryB := by
  decide

/-- C4, amended: the Python `max()` keeps the first of several candidates
attaining the maximal key, so the selected candidate is the first among
the equal-timestamp maximal candidates in iteration order: every
candidate strictly before it has a strictly smaller modification time,
and every candidate after it has a smaller-or-equal one. -/
theorem newest_run_dir_in_first_wins (b : BaseDir) (e : DirEntry)
    (h : newest_run_dir_in b = some e) :
    ∃ l₁ l₂, matchingCandidates b = l₁ ++ e :: l₂ ∧
      (∀ y ∈ l₁, y.mtime < e.mtime) ∧ (∀ y ∈ l₂, y.mtime ≤ e.mtime) := by
  rw [newest_run_dir_in] at h
  cases hpres : b.present with
  | false => rw [hpres] at h; simp at h
  | true =>
      rw [hpres] at h
      simp only [Bool.not_true, Bool.false_eq_true, if_false] at h
      rcases hc : matchingCandidates b with _ | ⟨x, xs⟩
      · rw [hc] at h; exact absurd h (by simp [pyMax])
      · rw [hc] at h
        simp only [pyMax, Option.some.injEq] at h
        rcases foldl_pyMax_spec (fun e => e.mtime) xs x e h with
          ⟨hr, hall⟩ | ⟨m₁, m₂, hsplit, hgt, h₁, h₂⟩
        · subst hr
          exact ⟨[], xs, rfl, by simp, hall⟩
        · refine ⟨x :: m₁, m₂, by rw [hsplit]; rfl, ?_, h₂⟩
          intro y hy
          rcases List.mem_cons.mp hy with hyx | hym
          · rw [hyx]; exact hgt
          · exact h₁ y hym

/-- C4, witness for the amended theorem on the concrete tie. -/
theorem newest_run_dir_in_first_wins_witness :
    ∃ l₁ l₂, matchingCandidates tieBase = l₁ ++ tieEntryA :: l₂ ∧
      (∀ y ∈ l₁, y.mtime < tieEntryA.mtime) ∧
      (∀ y ∈ l₂, y.mtime ≤ tieEntryA.mtime) :=
  newest_run_dir_in_first_wins tieBase tieEntryA (by decide)

/-! ### Claims about the analysis orchestrator -/

theorem mkResult_status_spec (svc : AnalysisService) (competitor baseline : List Char)
    (rc : Int) (out err : List Char) :
    ((svc.mkResult competitor baseline rc out err).status = "ok".toList ↔
      (svc.mkResult competitor baseline rc out err).exit_code = 0) ∧
    ((svc.mkResult competitor baseline rc out err).exit_code ≠ 0 →
      (svc.mkResult competitor baseline rc out err).status = "failed".toList) := by
  simp only [AnalysisService.mkResult]
  by_cases h : rc = 0
  · simp [h]
  · rw [if_neg h]
    refine ⟨⟨fun habs => absurd habs (by decide), fun h0 => absurd h0 h⟩, fun _ => rfl⟩

/-- C5: `run` raises exactly when the normalized competitor is empty
(launching nothing), or when an executed attempt times out or fails to
launch; a completed attempt, even with non-zero exit code, yields a
normal result whose status is `"ok"` exactly when the exit code is zero
and `"failed"` otherwise. -/
theorem run_raises_exactly_on_empty_timeout_or_launch
    (svc : AnalysisService)
    (competitor_raw baseline_raw file_raw extra_instructions instruction_preset : List Char)
    (procExec : List (List Char) → ProcOutcome) :
    ((∃ e, (svc.run competitor_raw baseline_raw file_raw extra_instructions
          instruction_preset procExec).1 = Except.error e) ↔
        (svc.url_normalizer.normalize competitor_raw = [] ∨
          ∃ c ∈ (svc.run competitor_raw baseline_raw file_raw extra_instructions
              instruction_preset procExec).2,
            procExec c = ProcOutcome.timedOut ∨
              ∃ m, procExec c = ProcOutcome.launchError m)) ∧
    (svc.url_normalizer.normalize competitor_raw = [] →
      (svc.run competitor_raw baseline_raw file_raw extra_instructions
          instruction_preset procExec).2 = []) ∧
    (∀ r, (svc.run competitor_raw baseline_raw file_raw extra_instructions
          instruction_preset procExec).1 = Except.ok r →
      (r.status = "ok".toList ↔ r.exit_code = 0) ∧
      (r.exit_code ≠ 0 → r.status = "failed".toList)) := by
  by_cases hcomp : svc.url_normalizer.normalize competitor_raw = []
  · refine ⟨?_, ?_, ?_⟩ <;> simp only [AnalysisService.run, if_pos hcomp]
    · exact ⟨fun _ => Or.inl hcomp, fun _ => ⟨_, rfl⟩⟩
    · intro _; trivial
    · intro r hr; exact absurd hr (by simp)
  · cases h1 : procExec (svc.cmdOf (svc.url_normalizer.normalize competitor_raw)
        (svc.baselineOf baseline_raw) file_raw instruction_preset extra_instructions) with
    | timedOut =>
        refine ⟨?_, fun hc => absurd hc hcomp, ?_⟩ <;>
          simp only [AnalysisService.run, if_neg hcomp, h1]
        · exact ⟨fun _ => Or.inr ⟨_, by simp, Or.inl h1⟩, fun _ => ⟨_, rfl⟩⟩
        · intro r hr; exact absurd hr (by simp)
    | launchError m =>
        refine ⟨?_, fun hc => absurd hc hcomp, ?_⟩ <;>
          simp only [AnalysisService.run, if_neg hcomp, h1]
        · exact ⟨fun _ => Or.inr ⟨_, by simp, Or.inr ⟨m, h1⟩⟩, fun _ => ⟨_, rfl⟩⟩
        · intro r hr; exact absurd hr (by simp)
    | completed rc out err =>
        by_cases hretry : rc ≠ 0 ∧ stderrIndicatesUnknownOption err = true ∧
            (pyStrip extra_instructions ≠ [] ∨ pyStrip instruction_preset ≠ [])
        · cases h2 : procExec (svc.fallbackCmdOf (svc.url_normalizer.normalize competitor_raw)
              (svc.baselineOf baseline_raw) file_raw) with
          | timedOut =>
              refine ⟨?_, fun hc => absurd hc hcomp, ?_⟩ <;>
                simp only [AnalysisService.run, if_neg hcomp, h1, if_pos hretry, h2]
              · exact ⟨fun _ => Or.inr ⟨_, by simp, Or.inl h2⟩, fun _ => ⟨_, rfl⟩⟩
              · intro r hr; exact absurd hr (by simp)
          | launchError m2 =>
              refine ⟨?_, fun hc => absurd hc hcomp, ?_⟩ <;>
                simp only [AnalysisService.run, if_neg hcomp, h1, if_pos hretry, h2]
              · exact ⟨fun _ => Or.inr ⟨_, by simp, Or.inr ⟨m2, h2⟩⟩, fun _ => ⟨_, rfl⟩⟩
              · intro r hr; exact absurd hr (by simp)
          | completed rc2 out2 err2 =>
              refine ⟨?_, fun hc => absurd hc hcomp, ?_⟩ <;>
                simp only [AnalysisService.run, if_neg hcomp, h1, if_pos hretry, h2]
              · constructor
                · rintro ⟨e, he⟩; exact absurd he (by simp)
                · rintro (hc | ⟨c, hcmem, hcase⟩)
                  · exact absurd hc hcomp
                  · simp only [List.mem_cons, List.mem_singleton,
                      List.not_mem_nil, or_false] at hcmem
                    rcases hcmem with rfl | rfl
                    · rw [h1] at hcase
                      rcases hcase with ht | ⟨m3, hm⟩
                      · exact absurd ht (by simp)
                      · exact absurd hm (by simp)
                    · rw [h2] at hcase
                      rcases hcase with ht | ⟨m3, hm⟩
                      · exact absurd ht (by simp)
                      · exact absurd hm (by simp)
              · intro r hr
                rw [Except.ok.injEq] at hr
                rw [← hr]
                exact mkResult_status_spec svc _ _ rc2 out2 err2
        · refine ⟨?_, fun hc => absurd hc hcomp, ?_⟩ <;>
            simp only [AnalysisService.run, if_neg hcomp, h1, if_neg hretry]
          · constructor
            · rintro ⟨e, he⟩; exact absurd he (by simp)
            · rintro (hc | ⟨c, hcmem, hcase⟩)
              · exact absurd hc hcomp
              · simp only [List.mem_singleton, List.mem_cons,
                  List.not_mem_nil, or_false] at hcmem
                subst hcmem
                rw [h1] at hcase
                rcases hcase with ht | ⟨m3, hm⟩
                · exact absurd ht (by simp)
                · exact absurd hm (by simp)
          · intro r hr
            rw [Except.ok.injEq] at hr
            rw [← hr]
            exact mkResult_status_spec svc _ _ rc out err

/-- C5, witness: with an empty competitor the service raises
`ValueError` before launching any process (the trace is empty). -/
theorem run_raises_exactly_on_empty_timeout_or_launch_witness :
    (svc0.run "".toList "".toList "".toList "".toList "".toList execOk).2 = [] :=
  (run_raises_exactly_on_empty_timeout_or_launch svc0
      "".toList "".toList "".toList "".toList "".toList execOk).2.1 (by decide)

/-- C6: whenever a process is launched, the first argument vector is
the external-program path, `--competitor` with the normalized
competitor, `--baseline` with the normalized-or-empty baseline (the
flag always present), then `--file`, `--instruction-preset` and
`--extra-instructions`, each included exactly when the corresponding
value is non-empty after stripping whitespace. -/
theorem run_builds_documented_argument_vector
    (svc : AnalysisService)
    (competitor_raw baseline_raw file_raw extra_instructions instruction_preset : List Char)
    (procExec : List (List Char) → ProcOutcome)
    (h : svc.url_normalizer.normalize competitor_raw ≠ []) :
    ((svc.run competitor_raw baseline_raw file_raw extra_instructions
        instruction_preset procExec).2).head? =
      some ([svc.exe_path, "--competitor".toList,
             svc.url_normalizer.normalize competitor_raw,
             "--baseline".toList,
             if pyStrip baseline_raw ≠ [] then
               svc.url_normalizer.normalize baseline_raw else []]
        ++ (if pyStrip file_raw ≠ [] then
              ["--file".toList, pyStrip file_raw] else [])
        ++ (if pyStrip instruction_preset ≠ [] then
              ["--instruction-preset".toList, pyStrip instruction_preset] else [])
        ++ (if pyStrip extra_instructions ≠ [] then
              ["--extra-instructions".toList, pyStrip extra_instructions] else [])) := by
  have hunfold : svc.cmdOf (svc.url_normalizer.normalize competitor_raw)
      (svc.baselineOf baseline_raw) file_raw instruction_preset extra_instructions =
      [svc.exe_path, "--competitor".toList,
       svc.url_normalizer.normalize competitor_raw,
       "--baseline".toList,
       if pyStrip baseline_raw ≠ [] then
         svc.url_normalizer.normalize baseline_raw else []]
        ++ (if pyStrip file_raw ≠ [] then
              ["--file".toList, pyStrip file_raw] else [])
        ++ (if pyStrip instruction_preset ≠ [] then
              ["--instruction-preset".toList, pyStrip instruction_preset] else [])
        ++ (if pyStrip extra_instructions ≠ [] then
              ["--extra-instructions".toList, pyStrip extra_instructions] else []) := by
    simp [AnalysisService.cmdOf, AnalysisService.fallbackCmdOf,
      AnalysisService.baselineOf]
  cases h1 : procExec (svc.cmdOf (svc.url_normalizer.normalize competitor_raw)
      (svc.baselineOf baseline_raw) file_raw instruction_preset extra_instructions) with
  | timedOut =>
      simp only [AnalysisService.run, if_neg h, h1, List.head?_cons]
      rw [hunfold]
  | launchError m =>
      simp only [AnalysisService.run, if_neg h, h1, List.head?_cons]
      rw [hunfold]
  | completed rc out err =>
      by_cases hretry : rc ≠ 0 ∧ stderrIndicatesUnknownOption err = true ∧
          (pyStrip extra_instructions ≠ [] ∨ pyStrip instruction_preset ≠ [])
      · cases h2 : procExec (svc.fallbackCmdOf
            (svc.url_normalizer.normalize competitor_raw)
            (svc.baselineOf baseline_raw) file_raw) with
        | timedOut =>
            simp only [AnalysisService.run, if_neg h, h1, if_pos hretry, h2,
              List.head?_cons]
            rw [hunfold]
        | launchError m2 =>
            simp only [AnalysisService.run, if_neg h, h1, if_pos hretry, h2,
              List.head?_cons]
            rw [hunfold]
        | completed rc2 out2 err2 =>
            simp only [AnalysisService.run, if_neg h, h1, if_pos hretry, h2,
              List.head?_cons]
            rw [hunfold]
      · simp only [AnalysisService.run, if_neg h, h1, if_neg hretry,
          List.head?_cons]
        rw [hunfold]

/-- C6, witness for the end-to-end scenario of the spec: competitor `acme`,
blank baseline and file — the command is
`tga.exe --competitor https://acme.com --baseline ` with the baseline
flag present and its value empty. -/
theorem run_builds_documented_argument_vector_witness :
    (svc0.run "acme".toList "".toList "".toList "".toList "".toList execOk).2.head? =
      some ["tga.exe".toList, "--competitor".toList, "https://acme.com".toList,
            "--baseline".toList, []] := by
  rw [run_builds_documented_argument_vector svc0 "acme".toList "".toList "".toList
    "".toList "".toList execOk (by decide)]
  decide

/-- C7: the retry happens exactly once — the trace never exceeds two
commands, it equals `[first command, fallback command]` (the fallback
keeping `--file` but dropping the prompt flags) precisely when the
first attempt completed with non-zero exit code, stderr matching the
unrecognized-option check, and at least one prompt-related value
supplied; after a timeout or a launch failure the first command is the
only one executed. -/
theorem run_retry_policy
    (svc : AnalysisService)
    (competitor_raw baseline_raw file_raw extra_instructions instruction_preset : List Char)
    (procExec : List (List Char) → ProcOutcome)
    (h : svc.url_normalizer.normalize competitor_raw ≠ []) :
    ((svc.run competitor_raw baseline_raw file_raw extra_instructions
        instruction_preset procExec).2.length ≤ 2) ∧
    (((svc.run competitor_raw baseline_raw file_raw extra_instructions
          instruction_preset procExec).2 =
        [svc.cmdOf (svc.url_normalizer.normalize competitor_raw)
            (svc.baselineOf baseline_raw) file_raw instruction_preset extra_instructions,
         svc.fallbackCmdOf (svc.url_normalizer.normalize competitor_raw)
            (svc.baselineOf baseline_raw) file_raw]) ↔
      (∃ rc out err,
        procExec (svc.cmdOf (svc.url_normalizer.normalize competitor_raw)
            (svc.baselineOf baseline_raw) file_raw instruction_preset extra_instructions)
          = ProcOutcome.completed rc out err ∧
        rc ≠ 0 ∧ stderrIndicatesUnknownOption err = true ∧
        (pyStrip extra_instructions ≠ [] ∨ pyStrip instruction_preset ≠ []))) ∧
    (procExec (svc.cmdOf (svc.url_normalizer.normalize competitor_raw)
          (svc.baselineOf baseline_raw) file_raw instruction_preset extra_instructions)
        = ProcOutcome.timedOut →
      (svc.run competitor_raw baseline_raw file_raw extra_instructions
          instruction_preset procExec).2 =
        [svc.cmdOf (svc.url_normalizer.normalize competitor_raw)
            (svc.baselineOf baseline_raw) file_raw instruction_preset extra_instructions]) ∧
    (∀ m, procExec (svc.cmdOf (svc.url_normalizer.normalize competitor_raw)
          (svc.baselineOf baseline_raw) file_raw instruction_preset extra_instructions)
        = ProcOutcome.launchError m →
      (svc.run competitor_raw baseline_raw file_raw extra_instructions
          instruction_preset procExec).2 =
        [svc.cmdOf (svc.url_normalizer.normalize competitor_raw)
            (svc.baselineOf baseline_raw) file_raw instruction_preset extra_instructions]) := by
  cases h1 : procExec (svc.cmdOf (svc.url_normalizer.normalize competitor_raw)
      (svc.baselineOf baseline_raw) file_raw instruction_preset extra_instructions) with
  | timedOut =>
      refine ⟨?_, ?_, ?_, ?_⟩ <;>
        simp only [AnalysisService.run, if_neg h, h1]
      · simp
      · constructor
        · intro habs; exact absurd habs (by simp)
        · rintro ⟨rc, out, err, heq, -⟩
          exact absurd heq (by simp)
      · intro _; first | rfl | trivial
      · intro m hm; first | rfl | trivial
  | launchError m =>
      refine ⟨?_, ?_, ?_, ?_⟩ <;>
        simp only [AnalysisService.run, if_neg h, h1]
      · simp
      · constructor
        · intro habs; exact absurd habs (by simp)
        · rintro ⟨rc, out, err, heq, -⟩
          exact absurd heq (by simp)
      · intro ht; trivial
      · intro m2 hm; first | rfl | trivial
  | completed rc out err =>
      by_cases hretry : rc ≠ 0 ∧ stderrIndicatesUnknownOption err = true ∧
          (pyStrip extra_instructions ≠ [] ∨ pyStrip instruction_preset ≠ [])
      · cases h2 : procExec (svc.fallbackCmdOf
            (svc.url_normalizer.normalize competitor_raw)
            (svc.baselineOf baseline_raw) file_raw) with
        | timedOut =>
            refine ⟨?_, ?_, ?_, ?_⟩ <;>
              simp only [AnalysisService.run, if_neg h, h1, if_pos hretry, h2]
            · simp
            · constructor
              · intro _
                exact ⟨rc, out, err, rfl, hretry.1, hretry.2.1, hretry.2.2⟩
              · intro _; first | rfl | trivial
            · intro ht; exact absurd ht (by simp)
            · intro m2 hm; exact absurd hm (by simp)
        | launchError m2 =>
            refine ⟨?_, ?_, ?_, ?_⟩ <;>
              simp only [AnalysisService.run, if_neg h, h1, if_pos hretry, h2]
            · simp
            · constructor
              · intro _
                exact ⟨rc, out, err, rfl, hretry.1, hretry.2.1, hretry.2.2⟩
              · intro _; first | rfl | trivial
            · intro ht; exact absurd ht (by simp)
            · intro m3 hm; exact absurd hm (by simp)
        | completed rc2 out2 err2 =>
            refine ⟨?_, ?_, ?_, ?_⟩ <;>
              simp only [AnalysisService.run, if_neg h, h1, if_pos hretry, h2]
            · simp
            · constructor
              · intro _
                exact ⟨rc, out, err, rfl, hretry.1, hretry.2.1, hretry.2.2⟩
              · intro _; first | rfl | trivial
            · intro ht; exact absurd ht (by simp)
            · intro m3 hm; exact absurd hm (by simp)
      · refine ⟨?_, ?_, ?_, ?_⟩ <;>
          simp only [AnalysisService.run, if_neg h, h1, if_neg hretry]
        · simp
        · constructor
          · intro habs; exact absurd habs (by simp)
          · rintro ⟨rc', out', err', heq, hrc', herr', hsup'⟩
            injection heq with e1 e2 e3
            exact absurd ⟨by rw [e1]; exact hrc', by rw [e3]; exact herr', hsup'⟩
              hretry
        · intro _; first | rfl | trivial
        · intro m2 hm; first | rfl | trivial

/-- C7, witness for the end-to-end scenario of the spec: the oracle rejects
the prompt flags with exit code 2 and `unrecognized arguments` on
stderr, extra instructions were supplied, so the trace is exactly the
first command followed by the stripped fallback command. -/
theorem run_retry_policy_witness :
    (svc0.run "acme".toList "".toList "".toList "be brief".toList "".toList
        execRejectsPromptFlags).2 =
      [svc0.cmdOf (svc0.url_normalizer.normalize "acme".toList)
          (svc0.baselineOf "".toList) "".toList "".toList "be brief".toList,
       svc0.fallbackCmdOf (svc0.url_normalizer.normalize "acme".toList)
          (svc0.baselineOf "".toList) "".toList] :=
  (run_retry_policy svc0 "acme".toList "".toList "".toList "be brief".toList
      "".toList execRejectsPromptFlags (by decide)).2.1.mpr
    ⟨2, [], "unrecognized arguments: --extra-instructions".toList,
      by decide, by decide, by decide, Or.inl (by decide)⟩

/-! ### Claims about the download route -/

/-- C9: a file is served only when its resolved path lies strictly
inside the run directory recorded for the run identifier and the file
exists; a resolved path escaping the recorded directory is rejected
with 403, an unknown run identifier or a missing file with 404 — and
the rejecting outcomes carry no file content (only `serve` does). -/
theorem download_serves_only_inside_recorded_run_dir
    (runs : List (List Char × FsPath)) (fs : List FsPath)
    (run_id filename : List Char) :
    (∀ p, download runs fs run_id filename = DownloadOutcome.serve p →
      ∃ d, runs.lookup run_id = some d ∧
        isProperAncestorOf d p = true ∧ p ∈ fs) ∧
    (∀ d, runs.lookup run_id = some d →
      isProperAncestorOf d (resolveChild d filename) = false →
      download runs fs run_id filename = DownloadOutcome.forbidden) ∧
    (runs.lookup run_id = none →
      download runs fs run_id filename = DownloadOutcome.notFound) ∧
    (∀ d, runs.lookup run_id = some d →
      isProperAncestorOf d (resolveChild d filename) = true →
      resolveChild d filename ∉ fs →
      download runs fs run_id filename = DownloadOutcome.notFound) := by
  refine ⟨?_, ?_, ?_, ?_⟩
  · intro p hp
    cases hl : runs.lookup run_id with
    | none =>
        simp only [download, hl] at hp
        exact absurd hp (by simp)
    | some d =>
        simp only [download, hl] at hp
        by_cases hesc : isProperAncestorOf d (resolveChild d filename) = false
        · rw [if_pos hesc] at hp; exact absurd hp (by simp)
        · rw [if_neg hesc] at hp
          by_cases hmem : resolveChild d filename ∈ fs
          · rw [if_neg (by simpa using hmem)] at hp
            have hps : resolveChild d filename = p := by
              injection hp
            exact ⟨d, rfl, by
              rw [← hps]
              exact Bool.of_not_eq_false hesc, hps ▸ hmem⟩
          · rw [if_pos (by simpa using hmem)] at hp
            exact absurd hp (by simp)
  · intro d hd hesc
    simp only [download, hd]
    rw [if_pos hesc]
  · intro hnone
    simp only [download, hnone]
  · intro d hd hin hmem
    simp only [download, hd]
    rw [if_neg (by simp [hin]), if_pos (by simpa using hmem)]

/-- C9, witness: requesting `..` under a recorded run escapes the run
directory and is rejected with 403. -/
theorem download_serves_only_inside_recorded_run_dir_witness :
    download demoRuns demoFs "20250101_010101".toList "..".toList
      = DownloadOutcome.forbidden :=
  (download_serves_only_inside_recorded_run_dir demoRuns demoFs
      "20250101_010101".toList "..".toList).2.1
    ["c:".toList, "runs".toList, "comparison_report_1".toList]
    (by decide) (by decide)

/-! ### Claim C10: idempotence for the http/https default schemes -/

/-- Wrapping a whitespace-free, non-empty tail with an `http`/`https`
scheme yields a string that stripping leaves unchanged and that passes
the scheme check. -/
theorem scheme_wrap_spec (n : GuessComUrlNormalizer)
    (hsch : n.default_scheme = "https".toList ∨ n.default_scheme = "http".toList)
    (tail : List Char) (hne : tail ≠ [])
    (hlast : ∀ c, tail.getLast? = some c → pyIsSpace c = false) :
    pyStrip (n.default_scheme ++ ("://".toList ++ tail))
        = n.default_scheme ++ ("://".toList ++ tail) ∧
      startsWithScheme (n.default_scheme ++ ("://".toList ++ tail)) = true := by
  rcases hsch with hs | hs <;> rw [hs]
  · rw [show "https".toList ++ ("://".toList ++ tail) = "https://".toList ++ tail
      from rfl]
    constructor
    · refine pyStrip_eq_self ?_ ?_
      · intro c t' heq
        rw [show "https://".toList ++ tail
            = 'h' :: ("ttps://".toList ++ tail) from rfl] at heq
        injection heq with hc _
        rw [← hc]
        decide
      · intro c hc
        rw [List.getLast?_append_of_ne_nil _ hne] at hc
        exact hlast c hc
    · simp only [startsWithScheme]
      apply Bool.or_eq_true_iff.mpr
      right
      rw [lowerAscii_append,
        show lowerAscii "https://".toList = "https://".toList from by decide]
      exact isPre_self_append _ _
  · rw [show "http".toList ++ ("://".toList ++ tail) = "http://".toList ++ tail
      from rfl]
    constructor
    · refine pyStrip_eq_self ?_ ?_
      · intro c t' heq
        rw [show "http://".toList ++ tail
            = 'h' :: ("ttp://".toList ++ tail) from rfl] at heq
        injection heq with hc _
        rw [← hc]
        decide
      · intro c hc
        rw [List.getLast?_append_of_ne_nil _ hne] at hc
        exact hlast c hc
    · simp only [startsWithScheme]
      apply Bool.or_eq_true_iff.mpr
      left
      rw [lowerAscii_append,
        show lowerAscii "http://".toList = "http://".toList from by decide]
      exact isPre_self_append _ _

/-- When the stripped input has no slash, the split host is the whole
stripped input. -/
theorem splitHost_of_no_rest {s : List Char}
    (hrest : splitRest (pyStrip s) = []) :
    splitHost (pyStrip s) = pyStrip s := by
  have hta := List.takeWhile_append_dropWhile
    (p := fun c => decide (c ≠ '/')) (l := pyStrip s)
  rw [show (pyStrip s).dropWhile (fun c => decide (c ≠ '/')) = []
    from hrest] at hta
  rw [splitHost, show (pyStrip s).takeWhile (fun c => decide (c ≠ '/')) = pyStrip s
    from by simpa using hta]
  exact pyStrip_idem s

/-- The host-plus-rest tail built by the guessing branch is non-empty
and ends in a non-whitespace character. -/
theorem guessed_tail_spec (n : GuessComUrlNormalizer) (s : List Char)
    (h0 : pyStrip s ≠ []) :
    guessedHost n (pyStrip s) ++ splitRest (pyStrip s) ≠ [] ∧
      (∀ c, (guessedHost n (pyStrip s) ++ splitRest (pyStrip s)).getLast? = some c →
        pyIsSpace c = false) := by
  by_cases hrest : splitRest (pyStrip s) = []
  · have hhost : guessedHost n (pyStrip s) = splitHost (pyStrip s) ++ ".com".toList ∨
        guessedHost n (pyStrip s) = splitHost (pyStrip s) := by
      rw [guessedHost]
      split_ifs <;> [exact Or.inl rfl; exact Or.inr rfl]
    rw [hrest, List.append_nil]
    rcases hhost with hh | hh <;> rw [hh]
    · refine ⟨by simp, ?_⟩
      intro c hc
      rw [List.getLast?_append_of_ne_nil _ (by simp)] at hc
      rw [show (".com".toList : List Char).getLast? = some 'm' from rfl] at hc
      injection hc with hc
      rw [← hc]
      decide
    · rw [splitHost_of_no_rest hrest]
      refine ⟨h0, ?_⟩
      intro c hc
      exact pyStrip_getLast_false hc
  · refine ⟨by simp [hrest], ?_⟩
    intro c hc
    rw [List.getLast?_append_of_ne_nil _ hrest] at hc
    have hta := List.takeWhile_append_dropWhile
      (p := fun c => decide (c ≠ '/')) (l := pyStrip s)
    have hlast2 : (pyStrip s).getLast? = some c := by
      rw [← hta, List.getLast?_append_of_ne_nil _ (by simpa [splitRest] using hrest)]
      simpa [splitRest] using hc
    exact pyStrip_getLast_false hlast2

/-- For an `http`/`https` default scheme, every `normalize` output is
empty or is a whitespace-stripped string passing the scheme check. -/
theorem normalize_out_spec (n : GuessComUrlNormalizer)
    (hsch : n.default_scheme = "https".toList ∨ n.default_scheme = "http".toList)
    (s : List Char) :
    n.normalize s = [] ∨
      (pyStrip (n.normalize s) = n.normalize s ∧
        startsWithScheme (n.normalize s) = true) := by
  by_cases h0 : pyStrip s = []
  · left
    rw [GuessComUrlNormalizer.normalize, if_pos h0]
  · by_cases h2 : startsWithScheme (pyStrip s) = true
    · right
      rw [normalize_schemed_eq_strip n s h2]
      exact ⟨pyStrip_idem s, h2⟩
    · right
      have hdef : n.normalize s =
          n.default_scheme ++ ("://".toList
            ++ (guessedHost n (pyStrip s) ++ splitRest (pyStrip s))) := by
        rw [GuessComUrlNormalizer.normalize, if_neg h0, if_neg h2]
        simp [List.append_assoc]
      obtain ⟨hne, hlast⟩ := guessed_tail_spec n s h0
      obtain ⟨hstrip, hpre⟩ := scheme_wrap_spec n hsch _ hne hlast
      rw [hdef]
      exact ⟨hstrip, hpre⟩

/-- C10: with the default scheme `https` (or `http`), `normalize` is
idempotent — every non-empty output is stripped and passes the scheme
check, so a second pass returns it unchanged; and idempotence fails for
other configured schemes (witnessed by `ftp`). -/
theorem normalize_idempotent_for_http_schemes :
    (∀ (n : GuessComUrlNormalizer) (s : List Char),
        (n.default_scheme = "https".toList ∨ n.default_scheme = "http".toList) →
        n.normalize (n.normalize s) = n.normalize s) ∧
    (∃ (n : GuessComUrlNormalizer) (s : List Char),
        n.normalize (n.normalize s) ≠ n.normalize s) := by
  constructor
  · intro n s hsch
    rcases normalize_out_spec n hsch s with hnil | ⟨hstrip, hpre⟩
    · rw [hnil]
      rw [GuessComUrlNormalizer.normalize]
      simp [pyStrip, List.rdropWhile]
    · have hfix := normalize_schemed_eq_strip n (n.normalize s)
        (by rw [hstrip]; exact hpre)
      rw [hfix, hstrip]
  · exact ⟨⟨"ftp".toList, true, []⟩, "example".toList, by decide⟩

/-- C10, witness: idempotence at a concrete input under the default
(`https`) configuration. -/
theorem normalize_idempotent_for_http_schemes_witness :
    defaultNormalizer.normalize
        (defaultNormalizer.normalize "example/path ".toList)
      = defaultNormalizer.normalize "example/path ".toList :=
  normalize_idempotent_for_http_schemes.1 defaultNormalizer
    "example/path ".toList (Or.inl rfl)

end TgaWeb
